import Mathlib

set_option maxHeartbeats 1000000

/-!
Shallow embedding of the gha-playground automation scripts.

The repository holds three generations of a Garmin-steps → Google-Fit sync
script (`garmin_steps.py`, `garmin_steps_to_google_fit.py` at the root, and
`garmin-steps-syncer/garmin_steps_to_google_fit.py`), an activity-name
reconciler (`garmin_strava_name_syncer/name_syncer.py`) and an index
change-detection notifier (`ndc-index-checker/index_checker.py`).

Modelling conventions:
* Timestamps are UTC instants in whole seconds since the epoch (`Int`).  The
  scripts parse `"%Y-%m-%dT%H:%M:%S.%f"` strings with a fixed UTC zone and
  immediately work with `datetime.timestamp()` seconds; the data carries a
  `".0"` fractional part, so second precision is exact.  The fixed UTC+8
  reference timezone becomes an offset of 28800 seconds.
* A raised-and-caught Python exception around an external call is modelled
  with `Option` / `Except`; the Garmin fetch that returns `None` on error is
  `Option (List StepsEntry)` with `none` for the error case.
* The Google Fit upsert result is threaded through the sync loop as a
  function `upsertOk : Int → Bool` (day ↦ did the patch call succeed) so that
  theorems can talk about destination failures; the Python code catches every
  exception inside `insert_steps_data_list`, so the loop itself never reads
  this value.
-/

/-- One raw steps bucket as returned by the Garmin API
(`steps_data` entries with `startGMT`, `endGMT`, `steps`), with the two
timestamps modelled as already-parsed UTC instants in whole seconds. -/
structure StepsEntry where
  startGMT : Int
  endGMT : Int
  steps : Int
deriving DecidableEq, Repr

/-- A transformed record destined for Google Fit, with millisecond
start/end as produced by `filter_steps_data`. -/
structure FilteredEntry where
  startGMTMillis : Int
  endGMTMillis : Int
  steps : Int
deriving DecidableEq, Repr

/-- Python `list[-1]` on a possibly empty list. -/
def lastElem {α : Type} : List α → Option α
  | [] => none
  | [a] => some a
  | _ :: b :: t => lastElem (b :: t)

/-- The hour of a UTC instant `t` (seconds) viewed in the fixed UTC+8
reference timezone (`astimezone(timezone(timedelta(hours=8))).hour`). -/
def hourUTC8 (t : Int) : Int := ((t + 28800) % 86400) / 3600

/-- The minute of a UTC instant `t` (seconds) viewed in UTC+8. -/
def minuteUTC8 (t : Int) : Int := ((t + 28800) % 3600) / 60

/-- The calendar day (days since the epoch) of a UTC instant `t` viewed in
UTC+8 (`astimezone(...).date()`). -/
def dayOfUTC8 (t : Int) : Int := (t + 28800) / 86400

/-- Does the first character list begin with the second? -/
def charsBeginWith : List Char → List Char → Bool
  | _, [] => true
  | [], _ :: _ => false
  | c :: cs, d :: ds => c == d && charsBeginWith cs ds

/-- Python `s.startswith(p)`: character-level test. -/
def pyStartsWith (s p : String) : Bool := charsBeginWith s.data p.data

/-- The network initialisation calls the two Google-Fit scripts perform
before entering their sync loop, in program order. -/
inductive NetOp where
  | googleInit
  | dataSource
  | garminInit
deriving DecidableEq, Repr

/-- Outcome of a script's start-up section: the network calls it performed,
the exit status if it terminated before the sync loop (`some code`), and the
parsed watermark when it reached the loop. -/
structure PreludeResult where
  netCalls : List NetOp
  exitCode : Option Nat
  watermark : Option Int
deriving DecidableEq, Repr

namespace StepsSyncer

/-!
`garmin-steps-syncer/garmin_steps_to_google_fit.py` — the instant-watermark
generation of the sync engine.
-/

/-- `is_one_day_steps_are_all_done` (lines 136–159): a day's fetch is
complete iff the list is non-empty and its last entry's `startGMT`, viewed in
UTC+8, reads 23:45. -/
def is_one_day_steps_are_all_done (steps_data : List StepsEntry) : Bool :=
  match lastElem steps_data with
  | none => false
  | some last => hourUTC8 last.startGMT == 23 && minuteUTC8 last.startGMT == 45

/-- `filter_steps_data` (lines 161–192): keep entries with `steps > 0` whose
`startGMT` (whole seconds) is strictly after the watermark, converting both
timestamps to milliseconds. -/
def filter_steps_data (steps_data : List StepsEntry)
    (last_startGMT_seconds : Int) : List FilteredEntry :=
  steps_data.filterMap fun entry =>
    if entry.steps > 0 && entry.startGMT > last_startGMT_seconds then
      some ⟨entry.startGMT * 1000, entry.endGMT * 1000, entry.steps⟩
    else none

/-- The watermark update of the main loop (lines 423–426): re-read the last
raw entry's `startGMT` and, when it parses, replace the watermark with it. -/
def nextWatermark (w : Int) (raw : List StepsEntry) : Int :=
  match lastElem raw with
  | some e => e.startGMT
  | none => w

/-- Why the `while current_date <= today` loop ended. -/
inductive StopReason where
  | pastToday
  | noData
  | dayInProgress
  | notAllDone
deriving DecidableEq, Repr

/-- Observable outcome of one run of the sync loop: the watermark that is
then written to `new_last_startGMT_file` unconditionally, every record handed
to `insert_steps_data_list`, the days on which that upsert call failed, and
where/why the loop stopped. -/
structure RunResult where
  finalW : Int
  forwarded : List FilteredEntry
  failedDays : List Int
  stopDay : Int
  reason : StopReason
deriving DecidableEq, Repr

/-- The components of a `RunResult` the Python code's control flow and
persisted state consist of (everything except the record of destination
failures, which only the external world sees). -/
def RunResult.core (r : RunResult) : Int × List FilteredEntry × Int × StopReason :=
  (r.finalW, r.forwarded, r.stopDay, r.reason)

/-- The `__main__` sync loop (lines 398–432).  `fetch day` is
`get_steps_by_date` for that day: `none` models a raised-and-caught fetch
error (the function then returns Python `None`), `some l` a successful fetch.
`fuel` counts the days from `current_date` through `today`; each iteration
either breaks or moves to the next day, mirroring
`while current_date <= today`. -/
def syncLoop (fetch : Int → Option (List StepsEntry)) (upsertOk : Int → Bool) :
    Nat → Int → Int → RunResult
  | 0, w, day => ⟨w, [], [], day, .pastToday⟩
  | fuel + 1, w, day =>
    match fetch day with
    | none => ⟨w, [], [], day, .noData⟩
    | some [] => ⟨w, [], [], day, .noData⟩
    | some (e :: rest) =>
      if (filter_steps_data (e :: rest) w).isEmpty then
        if is_one_day_steps_are_all_done (e :: rest) then
          syncLoop fetch upsertOk fuel w (day + 1)
        else ⟨w, [], [], day, .dayInProgress⟩
      else
        if is_one_day_steps_are_all_done (e :: rest) then
          let r := syncLoop fetch upsertOk fuel (nextWatermark w (e :: rest)) (day + 1)
          ⟨r.finalW, filter_steps_data (e :: rest) w ++ r.forwarded,
            (if upsertOk day then [] else [day]) ++ r.failedDays, r.stopDay, r.reason⟩
        else
          ⟨nextWatermark w (e :: rest), filter_steps_data (e :: rest) w,
            (if upsertOk day then [] else [day]), day, .notAllDone⟩

/-- One full run: start at the UTC+8 date of the watermark (lines 395–396)
and loop up to `today`; the resulting watermark is persisted unconditionally
(lines 434–437). -/
def runSync (fetch : Int → Option (List StepsEntry)) (today : Int)
    (upsertOk : Int → Bool) (w : Int) : RunResult :=
  syncLoop fetch upsertOk (today - dayOfUTC8 w + 1).toNat w (dayOfUTC8 w)

/-- The environment values the script's start-up section reads. -/
structure Cfg where
  last_startGMT : Option String
  tokens : Option String
  googleJson : Option String
deriving DecidableEq, Repr

/-- The `__main__` start-up section (lines 349–393), up to the sync loop:
watermark presence check, watermark parse, token/credential presence checks,
base64+JSON decode of the Google credentials, then the three network
initialisations (each `exit(1)` on failure).  `parse` abstracts
`parse_datetime_with_timezone` restricted to this format. -/
def mainPrelude (parse : String → Option Int) (cfg : Cfg)
    (jsonDecodeOk googleOk dataSourceOk garminOk : Bool) : PreludeResult :=
  match cfg.last_startGMT with
  | none => ⟨[], some 1, none⟩
  | some s =>
    match parse s with
    | none => ⟨[], some 1, none⟩
    | some w =>
      match cfg.tokens with
      | none => ⟨[], some 1, none⟩
      | some _ =>
        match cfg.googleJson with
        | none => ⟨[], some 1, none⟩
        | some _ =>
          if !jsonDecodeOk then ⟨[], some 0, none⟩
          else if !googleOk then ⟨[.googleInit], some 1, none⟩
          else if !dataSourceOk then ⟨[.googleInit, .dataSource], some 1, none⟩
          else if !garminOk then ⟨[.googleInit, .dataSource, .garminInit], some 1, none⟩
          else ⟨[.googleInit, .dataSource, .garminInit], none, some w⟩

end StepsSyncer

namespace StepsRoot

/-!
`garmin_steps_to_google_fit.py` at the repository root — the day-granular
watermark generation that already pushes to Google Fit.
-/

/-- `filter_steps_data` (lines 137–168): keep entries with `steps > 0`,
converting both timestamps to milliseconds.  No watermark parameter. -/
def filter_steps_data (steps_data : List StepsEntry) : List FilteredEntry :=
  steps_data.filterMap fun entry =>
    if entry.steps > 0 then
      some ⟨entry.startGMT * 1000, entry.endGMT * 1000, entry.steps⟩
    else none

/-- `is_one_day_steps_are_all_synced` (lines 117–135). -/
def is_one_day_steps_are_all_synced (steps_data : List StepsEntry) : Bool :=
  match lastElem steps_data with
  | none => false
  | some last => hourUTC8 last.startGMT == 23 && minuteUTC8 last.startGMT == 45

/-- The dataset-key computation of `insert_steps_data_list` (lines 284–286):
`data_point_set[0]["startTimeNanos"]` and `data_point_set[-1]["endTimeNanos"]`.
It sits outside the function's `try`, so on an empty list the two subscripts
raise `IndexError` (modelled as `none`) and the exception propagates. -/
def insert_dataset_key (data_point_set : List FilteredEntry) : Option (Int × Int) :=
  match data_point_set.head?, lastElem data_point_set with
  | some a, some b => some (a.startGMTMillis * 1000000, b.endGMTMillis * 1000000)
  | _, _ => none

/-- Why the root script's `while` loop ended normally. -/
inductive RootStop where
  | pastToday
  | noData
  | notAllSynced
deriving DecidableEq, Repr

/-- The `__main__` sync loop of the root script (lines 356–376).  Days are
UTC+8 day numbers; `.error ()` is the `IndexError` escaping
`insert_steps_data_list` when the (unconditionally computed) filtered list is
empty, which aborts the loop and skips the watermark write. -/
def rootLoop (fetch : Int → Option (List StepsEntry)) :
    Nat → Int → Except Unit (Int × RootStop)
  | 0, day => .ok (day, .pastToday)
  | fuel + 1, day =>
    match fetch day with
    | none => .ok (day, .noData)
    | some [] => .ok (day, .noData)
    | some (e :: rest) =>
      match insert_dataset_key (filter_steps_data (e :: rest)) with
      | none => .error ()
      | some _ =>
        if is_one_day_steps_are_all_synced (e :: rest) then rootLoop fetch fuel (day + 1)
        else .ok (day, .notAllSynced)

/-- One run of the root loop from the parsed `last_synced_date` day. -/
def rootRun (fetch : Int → Option (List StepsEntry)) (today startDay : Int) :
    Except Unit (Int × RootStop) :=
  rootLoop fetch (today - startDay + 1).toNat startDay

/-- The value written to `new_last_synced_date.txt` (lines 378–381): the
final `current_date` on a normal loop exit, nothing when an exception
escaped the loop into the outer handler. -/
def rootFinalWrite (r : Except Unit (Int × RootStop)) : Option Int :=
  match r with
  | .ok (day, _) => some day
  | .error _ => none

/-- Environment values the root script's start-up section reads. -/
structure Cfg where
  last_synced_date : Option String
  tokens : Option String
  googleJson : Option String
deriving DecidableEq, Repr

/-- The root script's `__main__` start-up section (lines 314–354): presence
checks, base64+JSON decode, the three network initialisations, and only THEN
`datetime.strptime(last_synced_date, "%Y-%m-%d")`.  A `ValueError` from that
parse is swallowed by the outer `except Exception` handler (line 382), so the
script ends with exit status 0 after having performed its network calls. -/
def mainPrelude (parseDate : String → Option Int) (cfg : Cfg)
    (jsonDecodeOk googleOk dataSourceOk garminOk : Bool) : PreludeResult :=
  match cfg.last_synced_date with
  | none => ⟨[], some 1, none⟩
  | some s =>
    match cfg.tokens with
    | none => ⟨[], some 1, none⟩
    | some _ =>
      match cfg.googleJson with
      | none => ⟨[], some 1, none⟩
      | some _ =>
        if !jsonDecodeOk then ⟨[], some 0, none⟩
        else if !googleOk then ⟨[.googleInit], some 1, none⟩
        else if !dataSourceOk then ⟨[.googleInit, .dataSource], some 1, none⟩
        else if !garminOk then ⟨[.googleInit, .dataSource, .garminInit], some 1, none⟩
        else
          match parseDate s with
          | none => ⟨[.googleInit, .dataSource, .garminInit], some 0, none⟩
          | some d => ⟨[.googleInit, .dataSource, .garminInit], none, some d⟩

end StepsRoot

namespace GarminSteps

/-!
`garmin_steps.py` — the oldest generation (fetch and filter only, the Google
Fit push is still a TODO).
-/

/-- `filter_steps_data` (lines 127–158): identical to the root script's. -/
def filter_steps_data (steps_data : List StepsEntry) : List FilteredEntry :=
  steps_data.filterMap fun entry =>
    if entry.steps > 0 then
      some ⟨entry.startGMT * 1000, entry.endGMT * 1000, entry.steps⟩
    else none

/-- `is_one_day_steps_are_all_synced` (lines 107–125). -/
def is_one_day_steps_are_all_synced (steps_data : List StepsEntry) : Bool :=
  match lastElem steps_data with
  | none => false
  | some last => hourUTC8 last.startGMT == 23 && minuteUTC8 last.startGMT == 45

end GarminSteps

namespace NameSyncer

/-!
`garmin_strava_name_syncer/name_syncer.py` — the Garmin→Strava activity-name
reconciler.
-/

/-- One keyed activity as stored in the two per-source hashmaps:
`{"id": ..., "name": ...}` under a formatted start-timestamp key.  Both
fields come from `dict.get`, hence the `Option`s (`name` defaults to `"N/A"`
at use sites, `id` to `None`). -/
structure Activity where
  id : Option Int
  name : Option String
deriving DecidableEq, Repr

/-- `garmin_activity_name.startswith(tuple(sync_ignore_list))` (line 270):
true when the name starts with any configured ignore-list entry. -/
def isIgnored (ignoreList : List String) (name : String) : Bool :=
  ignoreList.any fun p => pyStartsWith name p

/-- `sync_name_from_garmin_to_strava` (lines 255–280), reduced to the rename
calls it issues.  The two snapshots are insertion-ordered key/value lists
(Python dicts); iteration runs over the Garmin mapping.  Each output triple
is one `strava_update_activity_name` call: the shared key, the Strava
activity's stored id, and the Garmin name it is renamed to. -/
def sync_name_from_garmin_to_strava (ignoreList : List String)
    (garmin_activities strava_activities : List (String × Activity)) :
    List (String × Option Int × String) :=
  garmin_activities.filterMap fun kv =>
    if isIgnored ignoreList (kv.2.name.getD "N/A") then none
    else
      match strava_activities.lookup kv.1 with
      | some sa =>
        if (kv.2.name.getD "N/A") != (sa.name.getD "N/A") then
          some (kv.1, sa.id, kv.2.name.getD "N/A")
        else none
      | none => none

end NameSyncer

namespace IndexChecker

/-!
`ndc-index-checker/index_checker.py` — the change-detection notifier.
-/

/-- The scalar snapshot persisted in the `NDC_INDEX` repository variable:
`{"latest_date", "latest_signal", "latest_signal_score"}`. -/
structure IndexSnapshot where
  latest_date : String
  latest_signal : String
  latest_signal_score : Int
deriving DecidableEq, Repr

/-- The trend icon attached to the notification message: `📈`, `📉`, or no
icon at all. -/
inductive Trend where
  | up
  | down
  | flat
deriving DecidableEq, Repr

/-- A notification event: old value (absent on first run or when the stored
variable did not parse), new value, trend icon. -/
structure NotifyEvent where
  oldData : Option IndexSnapshot
  newData : IndexSnapshot
  trend : Trend
deriving DecidableEq, Repr

/-- The change-detection core of `main` (lines 135–198): given the parsed
previous snapshot (`none` when `NDC_INDEX` is unset or fails to JSON-decode)
and the freshly scraped one, decide whether to notify.  The update condition
is the field-wise comparison of lines 146–151; the trend icon comparison is
lines 176–182 (`old_signal_score` exists exactly when a previous snapshot
parsed). -/
def checkAndNotify (prev : Option IndexSnapshot) (newData : IndexSnapshot) :
    Option NotifyEvent :=
  match prev with
  | none => some ⟨none, newData, Trend.flat⟩
  | some old =>
    if old.latest_date != newData.latest_date
        || old.latest_signal != newData.latest_signal
        || old.latest_signal_score != newData.latest_signal_score then
      some ⟨some old, newData,
        if old.latest_signal_score < newData.latest_signal_score then Trend.up
        else if old.latest_signal_score > newData.latest_signal_score then Trend.down
        else Trend.flat⟩
    else none

/-- Modelled from the spec: the trend indicator as §4.4 and claim C8 word it
— `up` if the new score is greater than the old, `down` if less, none
otherwise or when no previous score exists. -/
def trendSpec (prev : Option IndexSnapshot) (newData : IndexSnapshot) : Trend :=
  match prev with
  | none => Trend.flat
  | some old =>
    if newData.latest_signal_score > old.latest_signal_score then Trend.up
    else if newData.latest_signal_score < old.latest_signal_score then Trend.down
    else Trend.flat

/-- Modelled from the spec: emit an event carrying old and new values and the
trend indicator iff some field differs or no previous snapshot exists; no
event when all fields are equal. -/
def notifySpec (prev : Option IndexSnapshot) (newData : IndexSnapshot) :
    Option NotifyEvent :=
  if prev = some newData then none
  else some ⟨prev, newData, trendSpec prev newData⟩

end IndexChecker

/-!
Concrete fixtures used by counterexamples and witnesses.
-/

/-- A one-day fetch: day 0 (UTC+8) returns a 5-step bucket at 900 s followed
by a 0-step bucket at 1800 s; the day is incomplete (08:30 UTC+8 is not the
23:45 end-of-day boundary). -/
def fetchC1 : Int → Option (List StepsEntry) := fun d =>
  if d = 0 then some [⟨900, 1800, 5⟩, ⟨1800, 2700, 0⟩] else none

/-- A two-day fetch: day 0 is complete (its last bucket starts at 56700 s =
23:45 UTC+8) with steps to forward; day 1 has no data yet. -/
def fetchC2 : Int → Option (List StepsEntry) := fun d =>
  if d = 0 then some [⟨900, 1800, 7⟩, ⟨56700, 57600, 3⟩] else none

/-!
Helper lemmas.
-/

theorem lastElem_mem {α : Type} : ∀ {l : List α} {e : α}, lastElem l = some e → e ∈ l := by
  intro l
  induction l with
  | nil => intro e h; simp [lastElem] at h
  | cons a t ih =>
    intro e h
    cases t with
    | nil => simp [lastElem] at h; simp [h]
    | cons b t2 =>
      rw [show lastElem (a :: b :: t2) = lastElem (b :: t2) from rfl] at h
      exact List.mem_cons_of_mem a (ih h)

theorem lastElem_cons_isSome {α : Type} : ∀ (a : α) (t : List α), ∃ e, lastElem (a :: t) = some e := by
  intro a t
  induction t generalizing a with
  | nil => exact ⟨a, rfl⟩
  | cons b t2 ih => exact ih b

/-- In a list sorted by `startGMT`, every element's `startGMT` is at most the
last element's. -/
theorem sorted_le_lastElem :
    ∀ {l : List StepsEntry}, l.Pairwise (fun a b => a.startGMT ≤ b.startGMT) →
      ∀ {x : StepsEntry}, x ∈ l → ∀ {e : StepsEntry}, lastElem l = some e →
      x.startGMT ≤ e.startGMT := by
  intro l
  induction l with
  | nil => intro _ x hx; simp at hx
  | cons a t ih =>
    intro hp x hx e he
    cases t with
    | nil =>
      simp [lastElem] at he
      simp at hx
      simp [hx, he]
    | cons b t2 =>
      rw [show lastElem (a :: b :: t2) = lastElem (b :: t2) from rfl] at he
      rcases List.mem_cons.mp hx with rfl | hx2
      · exact le_trans ((List.pairwise_cons.mp hp).1 e (lastElem_mem he))
          (le_refl e.startGMT)
      · exact ih (List.pairwise_cons.mp hp).2 hx2 he

/-- If an instant's UTC+8 day is strictly earlier than another's, the first
instant is strictly earlier. -/
theorem lt_of_dayOfUTC8_lt {x y : Int} (h : dayOfUTC8 x < dayOfUTC8 y) : x < y := by
  by_contra hc
  push_neg at hc
  have h2 : (y + 28800) / 86400 ≤ (x + 28800) / 86400 :=
    Int.ediv_le_ediv (by norm_num) (by omega)
  simp only [dayOfUTC8] at h
  omega

/-- A non-empty filtered list comes from some raw entry with positive steps
strictly after the watermark. -/
theorem filter_nonempty_witness {raw : List StepsEntry} {w : Int}
    (h : StepsSyncer.filter_steps_data raw w ≠ []) :
    ∃ e ∈ raw, e.steps > 0 ∧ e.startGMT > w := by
  by_contra hc
  push_neg at hc
  apply h
  rw [StepsSyncer.filter_steps_data, List.filterMap_eq_nil_iff]
  intro a ha
  by_cases h1 : a.steps > 0
  · have h2 : ¬ a.startGMT > w := Int.not_lt.mpr (hc a ha h1)
    simp [h1, h2]
  · simp [h1]

/-- On a day with a non-empty filtered set the watermark update moves to the
last raw entry's `startGMT`, which (for a day list sorted by `startGMT`) is
at least the old watermark. -/
theorem nextWatermark_ge {raw : List StepsEntry} {w : Int}
    (hsorted : raw.Pairwise (fun a b => a.startGMT ≤ b.startGMT))
    (hne : StepsSyncer.filter_steps_data raw w ≠ []) :
    w ≤ StepsSyncer.nextWatermark w raw := by
  obtain ⟨x, hx, _, hxw⟩ := filter_nonempty_witness hne
  cases raw with
  | nil => simp at hx
  | cons e rest =>
    obtain ⟨L, hL⟩ := lastElem_cons_isSome e rest
    have hxL : x.startGMT ≤ L.startGMT := sorted_le_lastElem hsorted hx hL
    have hrw : StepsSyncer.nextWatermark w (e :: rest) = L.startGMT := by
      simp [StepsSyncer.nextWatermark, hL]
    rw [hrw]
    omega

/-- The sync loop never decreases the watermark, provided every fetched day
list is sorted by `startGMT` (the DayBucket invariant). -/
theorem syncLoop_mono (fetch : Int → Option (List StepsEntry)) (upsertOk : Int → Bool)
    (hs : ∀ d l, fetch d = some l → l.Pairwise (fun a b => a.startGMT ≤ b.startGMT)) :
    ∀ (fuel : Nat) (w day : Int), w ≤ (StepsSyncer.syncLoop fetch upsertOk fuel w day).finalW := by
  intro fuel
  induction fuel with
  | zero => intro w day; simp [StepsSyncer.syncLoop]
  | succ n ih =>
    intro w day
    cases hfd : fetch day with
    | none => simp [StepsSyncer.syncLoop, hfd]
    | some raw =>
      cases raw with
      | nil => simp [StepsSyncer.syncLoop, hfd]
      | cons e rest =>
        have hsortedRaw := hs day (e :: rest) hfd
        simp only [StepsSyncer.syncLoop, hfd]
        by_cases hemp : (StepsSyncer.filter_steps_data (e :: rest) w).isEmpty = true
        · rw [if_pos hemp]
          by_cases hdone : StepsSyncer.is_one_day_steps_are_all_done (e :: rest) = true
          · rw [if_pos hdone]; exact ih w (day + 1)
          · rw [if_neg hdone]
        · rw [if_neg hemp]
          have hne : StepsSyncer.filter_steps_data (e :: rest) w ≠ [] := by
            intro hnil
            exact hemp (by simp [hnil])
          have hwle : w ≤ StepsSyncer.nextWatermark w (e :: rest) :=
            nextWatermark_ge hsortedRaw hne
          by_cases hdone : StepsSyncer.is_one_day_steps_are_all_done (e :: rest) = true
          · rw [if_pos hdone]
            exact le_trans hwle (ih (StepsSyncer.nextWatermark w (e :: rest)) (day + 1))
          · rw [if_neg hdone]
            exact hwle

/-- Whatever the destination write outcomes, the sync loop computes the same
watermark, forwarded records, stop day and stop reason: the code catches
every exception inside `insert_steps_data_list` and never reads its result. -/
theorem syncLoop_core_independent (fetch : Int → Option (List StepsEntry)) (u v : Int → Bool) :
    ∀ (fuel : Nat) (w day : Int),
      (StepsSyncer.syncLoop fetch u fuel w day).core
        = (StepsSyncer.syncLoop fetch v fuel w day).core := by
  intro fuel
  induction fuel with
  | zero => intro w day; rfl
  | succ n ih =>
    intro w day
    cases hfd : fetch day with
    | none => simp [StepsSyncer.syncLoop, hfd]
    | some raw =>
      cases raw with
      | nil => simp [StepsSyncer.syncLoop, hfd]
      | cons e rest =>
        simp only [StepsSyncer.syncLoop, hfd]
        by_cases hemp : (StepsSyncer.filter_steps_data (e :: rest) w).isEmpty = true
        · rw [if_pos hemp, if_pos hemp]
          by_cases hdone : StepsSyncer.is_one_day_steps_are_all_done (e :: rest) = true
          · rw [if_pos hdone, if_pos hdone]; exact ih w (day + 1)
          · rw [if_neg hdone, if_neg hdone]
        · rw [if_neg hemp, if_neg hemp]
          by_cases hdone : StepsSyncer.is_one_day_steps_are_all_done (e :: rest) = true
          · rw [if_pos hdone, if_pos hdone]
            have h2 := ih (StepsSyncer.nextWatermark w (e :: rest)) (day + 1)
            simp only [StepsSyncer.RunResult.core, Prod.mk.injEq] at h2 ⊢
            exact ⟨h2.1, by rw [h2.2.1], h2.2.2.1, h2.2.2.2⟩
          · rw [if_neg hdone, if_neg hdone]
            simp [StepsSyncer.RunResult.core]

/-- A fetch whose errors have been replaced by empty results: Python's
`get_steps_by_date` returns `None` on a caught exception, and the loop's
`if not steps_data` treats `None` and `[]` alike. -/
theorem syncLoop_err_as_empty (fetch : Int → Option (List StepsEntry)) (upsertOk : Int → Bool) :
    ∀ (fuel : Nat) (w day : Int),
      StepsSyncer.syncLoop (fun d => some ((fetch d).getD [])) upsertOk fuel w day
        = StepsSyncer.syncLoop fetch upsertOk fuel w day := by
  intro fuel
  induction fuel with
  | zero => intro w day; rfl
  | succ n ih =>
    intro w day
    cases hfd : fetch day with
    | none => simp [StepsSyncer.syncLoop, hfd]
    | some raw =>
      cases raw with
      | nil => simp [StepsSyncer.syncLoop, hfd]
      | cons e rest =>
        simp only [StepsSyncer.syncLoop, hfd, Option.getD_some]
        by_cases hemp : (StepsSyncer.filter_steps_data (e :: rest) w).isEmpty = true
        · rw [if_pos hemp, if_pos hemp]
          by_cases hdone : StepsSyncer.is_one_day_steps_are_all_done (e :: rest) = true
          · rw [if_pos hdone, if_pos hdone]; exact ih w (day + 1)
          · rw [if_neg hdone, if_neg hdone]
        · rw [if_neg hemp, if_neg hemp]
          by_cases hdone : StepsSyncer.is_one_day_steps_are_all_done (e :: rest) = true
          · rw [if_pos hdone, if_pos hdone]
            rw [ih (StepsSyncer.nextWatermark w (e :: rest)) (day + 1)]
          · rw [if_neg hdone, if_neg hdone]

/-- A fetch error on the current day stops the loop at that day with
nothing forwarded and the watermark unchanged. -/
theorem syncLoop_noData (fetch : Int → Option (List StepsEntry)) (upsertOk : Int → Bool)
    (fuel : Nat) (w day : Int) (h : fetch day = none) :
    StepsSyncer.syncLoop fetch upsertOk (fuel + 1) w day
      = ⟨w, [], [], day, .noData⟩ := by
  simp [StepsSyncer.syncLoop, h]

/-- When the loop stops on an incomplete day (with or without forwarded
records), the watermark it leaves behind stays within that day and never
exceeds `max` of the initial watermark and the `startGMT` of that day's last
raw record.  Hypothesis `hd`: every fetched entry belongs (in UTC+8) to the
day it was fetched for. -/
theorem syncLoop_stop_bound (fetch : Int → Option (List StepsEntry)) (upsertOk : Int → Bool)
    (hd : ∀ d l, fetch d = some l → ∀ x ∈ l, dayOfUTC8 x.startGMT = d) (w0 : Int) :
    ∀ (fuel : Nat) (w day : Int), dayOfUTC8 w ≤ day → (w = w0 ∨ dayOfUTC8 w < day) →
      ((StepsSyncer.syncLoop fetch upsertOk fuel w day).reason = .dayInProgress ∨
        (StepsSyncer.syncLoop fetch upsertOk fuel w day).reason = .notAllDone) →
      dayOfUTC8 (StepsSyncer.syncLoop fetch upsertOk fuel w day).finalW
          ≤ (StepsSyncer.syncLoop fetch upsertOk fuel w day).stopDay ∧
      ∀ (raw : List StepsEntry) (lastRaw : StepsEntry),
        fetch (StepsSyncer.syncLoop fetch upsertOk fuel w day).stopDay = some raw →
        lastElem raw = some lastRaw →
        (StepsSyncer.syncLoop fetch upsertOk fuel w day).finalW ≤ max w0 lastRaw.startGMT := by
  intro fuel
  induction fuel with
  | zero =>
    intro w day h1 h2 h3
    simp [StepsSyncer.syncLoop] at h3
  | succ n ih =>
    intro w day h1 h2 h3
    cases hfd : fetch day with
    | none =>
      rw [syncLoop_noData fetch upsertOk n w day hfd] at h3
      simp at h3
    | some raw =>
      cases raw with
      | nil =>
        simp only [StepsSyncer.syncLoop, hfd] at h3
        simp at h3
      | cons e rest =>
        simp only [StepsSyncer.syncLoop, hfd] at h3 ⊢
        by_cases hemp : (StepsSyncer.filter_steps_data (e :: rest) w).isEmpty = true
        · rw [if_pos hemp] at h3 ⊢
          by_cases hdone : StepsSyncer.is_one_day_steps_are_all_done (e :: rest) = true
          · rw [if_pos hdone] at h3 ⊢
            refine ih w (day + 1) (by omega) ?_ h3
            rcases h2 with hw0 | hlt
            · exact Or.inl hw0
            · exact Or.inr (by omega)
          · rw [if_neg hdone] at h3 ⊢
            refine ⟨h1, ?_⟩
            intro raw2 lastRaw hraw2 hlast2
            have hraw2e : fetch day = some raw2 := hraw2
            rw [hfd] at hraw2e
            injection hraw2e with hraw2e
            subst hraw2e
            rcases h2 with rfl | hlt
            · exact le_max_left w lastRaw.startGMT
            · have hmem := lastElem_mem hlast2
              have hdayx := hd day (e :: rest) hfd lastRaw hmem
              have hwlt : w < lastRaw.startGMT := lt_of_dayOfUTC8_lt (by omega)
              exact le_max_of_le_right (le_of_lt hwlt)
        · rw [if_neg hemp] at h3 ⊢
          obtain ⟨L, hL⟩ := lastElem_cons_isSome e rest
          have hnw : StepsSyncer.nextWatermark w (e :: rest) = L.startGMT := by
            simp [StepsSyncer.nextWatermark, hL]
          have hdayL : dayOfUTC8 L.startGMT = day := hd day (e :: rest) hfd L (lastElem_mem hL)
          by_cases hdone : StepsSyncer.is_one_day_steps_are_all_done (e :: rest) = true
          · rw [if_pos hdone] at h3 ⊢
            have h3b : ((StepsSyncer.syncLoop fetch upsertOk n
                  (StepsSyncer.nextWatermark w (e :: rest)) (day + 1)).reason = .dayInProgress ∨
                (StepsSyncer.syncLoop fetch upsertOk n
                  (StepsSyncer.nextWatermark w (e :: rest)) (day + 1)).reason = .notAllDone) := h3
            have hrec := ih (StepsSyncer.nextWatermark w (e :: rest)) (day + 1)
              (by rw [hnw, hdayL]; omega) (Or.inr (by rw [hnw, hdayL]; omega)) h3b
            exact hrec
          · rw [if_neg hdone] at h3 ⊢
            constructor
            · show dayOfUTC8 (StepsSyncer.nextWatermark w (e :: rest)) ≤ day
              rw [hnw, hdayL]
            · intro raw2 lastRaw hraw2 hlast2
              have hraw2e : fetch day = some raw2 := hraw2
              rw [hfd] at hraw2e
              injection hraw2e with hraw2e
              subst hraw2e
              rw [hL] at hlast2
              injection hlast2 with hlast2
              subst hlast2
              show StepsSyncer.nextWatermark w (e :: rest) ≤ max w0 L.startGMT
              rw [hnw]
              exact le_max_right w0 L.startGMT

/-- In an association list with duplicate-free keys (a Python dict), a key
determines its value. -/
theorem assoc_value_unique {β : Type} :
    ∀ {g : List (String × β)}, (g.map Prod.fst).Nodup →
      ∀ {k : String} {a b : β}, (k, a) ∈ g → (k, b) ∈ g → a = b := by
  intro g
  induction g with
  | nil => intro _ k a b ha; simp at ha
  | cons p t ih =>
    intro hnodup k a b ha hb
    rw [List.map_cons, List.nodup_cons] at hnodup
    rcases List.mem_cons.mp ha with h1 | h1
    · rcases List.mem_cons.mp hb with h2 | h2
      · rw [← h1] at h2
        exact ((Prod.mk.injEq k b k a).mp h2).2.symm
      · exfalso
        apply hnodup.1
        rw [← h1]
        exact List.mem_map.mpr ⟨(k, b), h2, rfl⟩
    · rcases List.mem_cons.mp hb with h2 | h2
      · exfalso
        apply hnodup.1
        rw [← h2]
        exact List.mem_map.mpr ⟨(k, a), h1, rfl⟩
      · exact ih hnodup.2 h1 h2

/-!
Claim theorems.
-/

/-- C3: in the instant-watermark sync engine, every input record whose steps
value is 0 or whose startTime is not strictly after the watermark `w` is
excluded from the forwarded set (`filter_steps_data steps_data w`). -/
theorem claim_C3_filter_correctness (steps_data : List StepsEntry) (w : Int)
    (entry : StepsEntry) (_hmem : entry ∈ steps_data)
    (h : entry.steps = 0 ∨ entry.startGMT ≤ w) :
    (⟨entry.startGMT * 1000, entry.endGMT * 1000, entry.steps⟩ : FilteredEntry)
      ∉ StepsSyncer.filter_steps_data steps_data w := by
  intro hmem2
  rw [StepsSyncer.filter_steps_data, List.mem_filterMap] at hmem2
  obtain ⟨a, _, hf⟩ := hmem2
  by_cases hc : (decide (a.steps > 0) && decide (a.startGMT > w)) = true
  · rw [if_pos hc] at hf
    injection hf with hf
    have h1 : a.startGMT * 1000 = entry.startGMT * 1000 :=
      congrArg FilteredEntry.startGMTMillis hf
    have h3 : a.steps = entry.steps := congrArg FilteredEntry.steps hf
    simp only [Bool.and_eq_true, decide_eq_true_eq] at hc
    rcases h with h0 | hle
    · omega
    · omega
  · rw [if_neg hc] at hf
    exact absurd hf (by simp)

/-- C3 witness: the 0-step bucket at 1800 s is not forwarded. -/
theorem claim_C3_witness :
    (⟨1800 * 1000, 2700 * 1000, 0⟩ : FilteredEntry)
      ∉ StepsSyncer.filter_steps_data [⟨900, 1800, 5⟩, ⟨1800, 2700, 0⟩] 0 :=
  claim_C3_filter_correctness [⟨900, 1800, 5⟩, ⟨1800, 2700, 0⟩] 0 ⟨1800, 2700, 0⟩
    (by simp) (Or.inl rfl)

/-- C4: for every run the persisted watermark satisfies `w' ≥ w`, and on
each day whose filtered set is non-empty the watermark update equals
`max w (startGMT of the day's last raw record)` — provided each fetched day
list is sorted by `startGMT` (the DayBucket ordering invariant). -/
theorem claim_C4_watermark_monotonicity
    (fetch : Int → Option (List StepsEntry)) (today : Int) (upsertOk : Int → Bool) (w : Int)
    (hs : ∀ d l, fetch d = some l → l.Pairwise (fun a b => a.startGMT ≤ b.startGMT)) :
    w ≤ (StepsSyncer.runSync fetch today upsertOk w).finalW ∧
    ∀ (raw : List StepsEntry) (v : Int) (lastRaw : StepsEntry),
      raw.Pairwise (fun a b => a.startGMT ≤ b.startGMT) →
      StepsSyncer.filter_steps_data raw v ≠ [] →
      lastElem raw = some lastRaw →
      StepsSyncer.nextWatermark v raw = max v lastRaw.startGMT := by
  constructor
  · exact syncLoop_mono fetch upsertOk hs _ w (dayOfUTC8 w)
  · intro raw v lastRaw hsorted hne hlast
    have h1 : v ≤ StepsSyncer.nextWatermark v raw := nextWatermark_ge hsorted hne
    have h2 : StepsSyncer.nextWatermark v raw = lastRaw.startGMT := by
      cases raw with
      | nil => simp [lastElem] at hlast
      | cons e rest => simp [StepsSyncer.nextWatermark, hlast]
    rw [h2] at h1 ⊢
    exact (max_eq_right h1).symm

/-- C4 witness: a concrete run starting from watermark 0 ends at 1800 ≥ 0. -/
theorem claim_C4_witness :
    (0 : Int) ≤ (StepsSyncer.runSync fetchC1 0 (fun _ => true) 0).finalW :=
  (claim_C4_watermark_monotonicity fetchC1 0 (fun _ => true) 0 (by
    intro d l h
    by_cases hd0 : d = 0
    · subst hd0
      simp only [fetchC1, if_pos] at h
      injection h with h2
      subst h2
      decide
    · simp only [fetchC1, if_neg hd0] at h
      exact absurd h (by simp))).1

/-- C5: assuming the day list is ordered by `startGMT` (the DayBucket
invariant), the completeness predicate returns true iff the list is
non-empty and its last record — the one no other record starts after —
begins at 23:45 UTC+8; and the predicate of `garmin_steps.py` coincides
with the syncer's. -/
theorem claim_C5_completeness (steps_data : List StepsEntry)
    (hsorted : steps_data.Pairwise (fun a b => a.startGMT ≤ b.startGMT)) :
    (StepsSyncer.is_one_day_steps_are_all_done steps_data = true
      ↔ ∃ e ∈ steps_data, (∀ x ∈ steps_data, x.startGMT ≤ e.startGMT)
          ∧ hourUTC8 e.startGMT = 23 ∧ minuteUTC8 e.startGMT = 45) ∧
    ∀ l, GarminSteps.is_one_day_steps_are_all_synced l
        = StepsSyncer.is_one_day_steps_are_all_done l := by
  constructor
  · constructor
    · intro hdone
      cases hlast : lastElem steps_data with
      | none =>
        rw [StepsSyncer.is_one_day_steps_are_all_done, hlast] at hdone
        exact absurd hdone (by simp)
      | some L =>
        rw [StepsSyncer.is_one_day_steps_are_all_done, hlast] at hdone
        simp only [Bool.and_eq_true, beq_iff_eq] at hdone
        exact ⟨L, lastElem_mem hlast, fun x hx => sorted_le_lastElem hsorted hx hlast,
          hdone.1, hdone.2⟩
    · rintro ⟨e, he, hmax, hh, hm⟩
      cases steps_data with
      | nil => simp at he
      | cons a t =>
        obtain ⟨L, hL⟩ := lastElem_cons_isSome a t
        have h1 : e.startGMT ≤ L.startGMT := sorted_le_lastElem hsorted he hL
        have h2 : L.startGMT ≤ e.startGMT := hmax L (lastElem_mem hL)
        have h3 : L.startGMT = e.startGMT := le_antisymm h2 h1
        rw [StepsSyncer.is_one_day_steps_are_all_done, hL]
        simp [h3, hh, hm]
  · exact fun l => rfl

/-- C5 witness: a single bucket starting at 56700 s (23:45 UTC+8) makes the
day complete. -/
theorem claim_C5_witness :
    StepsSyncer.is_one_day_steps_are_all_done [⟨56700, 57600, 5⟩] = true :=
  ((claim_C5_completeness [⟨56700, 57600, 5⟩] (by simp)).1).mpr
    ⟨⟨56700, 57600, 5⟩, by simp, by decide, by decide, by decide⟩

/-- C1 counterexample: on the incomplete day 0 the only forwarded record
starts at 900 s, yet the persisted watermark becomes 1800 s — the `startGMT`
of the day's last raw bucket, which was filtered out for having 0 steps — so
`W'` exceeds the latest forwarded record's startTime. -/
theorem claim_C1_counterexample :
    StepsSyncer.runSync fetchC1 0 (fun _ => true) 0
      = ⟨1800, [⟨900000, 1800000, 5⟩], [], 0, .notAllDone⟩
    ∧ ¬((StepsSyncer.runSync fetchC1 0 (fun _ => true) 0).finalW * 1000 ≤ 900000) :=
  ⟨by decide, by decide⟩

/-- C1 (amended): when the run stops on an incomplete day, the persisted
watermark never exceeds `max` of the initial watermark and the `startGMT` of
that day's last raw (fetched) record, and the day derived from the persisted
watermark does not lie past that day.  Hypothesis `hd`: fetched records
belong (in UTC+8) to the day they were fetched for. -/
theorem claim_C1_amended (fetch : Int → Option (List StepsEntry)) (today : Int)
    (upsertOk : Int → Bool) (w : Int)
    (hd : ∀ d l, fetch d = some l → ∀ x ∈ l, dayOfUTC8 x.startGMT = d)
    (hstop : (StepsSyncer.runSync fetch today upsertOk w).reason = .dayInProgress ∨
      (StepsSyncer.runSync fetch today upsertOk w).reason = .notAllDone) :
    dayOfUTC8 (StepsSyncer.runSync fetch today upsertOk w).finalW
        ≤ (StepsSyncer.runSync fetch today upsertOk w).stopDay ∧
    ∀ (raw : List StepsEntry) (lastRaw : StepsEntry),
      fetch (StepsSyncer.runSync fetch today upsertOk w).stopDay = some raw →
      lastElem raw = some lastRaw →
      (StepsSyncer.runSync fetch today upsertOk w).finalW ≤ max w lastRaw.startGMT :=
  syncLoop_stop_bound fetch upsertOk hd w (today - dayOfUTC8 w + 1).toNat w (dayOfUTC8 w)
    (le_refl (dayOfUTC8 w)) (Or.inl rfl) hstop

/-- C1 witness: the concrete incomplete-day run keeps the watermark inside
the stopped day. -/
theorem claim_C1_witness :
    dayOfUTC8 (StepsSyncer.runSync fetchC1 0 (fun _ => true) 0).finalW
      ≤ (StepsSyncer.runSync fetchC1 0 (fun _ => true) 0).stopDay :=
  (claim_C1_amended fetchC1 0 (fun _ => true) 0
    (by
      intro d l h x hx
      by_cases hd0 : d = 0
      · subst hd0
        simp only [fetchC1, if_pos] at h
        injection h with h2
        subst h2
        simp at hx
        rcases hx with rfl | rfl
        · decide
        · decide
      · simp only [fetchC1, if_neg hd0] at h
        exact absurd h (by simp))
    (Or.inr (by decide))).1

/-- C2 counterexample: with every destination write failing
(`upsertOk = fun _ => false`), day 0's upsert fails, yet the run does not
stop there — it advances the watermark from 0 to 56700 and moves on to
day 1. -/
theorem claim_C2_counterexample :
    StepsSyncer.runSync fetchC2 1 (fun _ => false) 0
      = ⟨56700, [⟨900000, 1800000, 7⟩, ⟨56700000, 57600000, 3⟩], [0], 1, .noData⟩
    ∧ ¬((StepsSyncer.runSync fetchC2 1 (fun _ => false) 0).finalW ≤ 0)
    ∧ (StepsSyncer.runSync fetchC2 1 (fun _ => false) 0).stopDay ≠ 0 :=
  ⟨by decide, by decide, by decide⟩

/-- C2 (amended): destination write failures are logged inside the upsert
and swallowed; the run's watermark, forwarded records, stop day and stop
reason are identical whatever the destination outcomes, so a failed day's
contribution still advances `W` and is not retried by the next run. -/
theorem claim_C2_amended (fetch : Int → Option (List StepsEntry)) (today : Int)
    (u v : Int → Bool) (w : Int) :
    (StepsSyncer.runSync fetch today u w).core = (StepsSyncer.runSync fetch today v w).core :=
  syncLoop_core_independent fetch u v (today - dayOfUTC8 w + 1).toNat w (dayOfUTC8 w)

/-- C6 counterexample: with ignore list `["ZZZ"]`, a Garmin activity named
`"Run"` matching a Strava activity named `"ZZZ x"` IS renamed even though
the destination (Strava) name starts with the ignore-list entry: the code
tests the ignore list against the source name, not the destination name. -/
theorem claim_C6_counterexample :
    NameSyncer.sync_name_from_garmin_to_strava ["ZZZ"]
        [("t", ⟨some 1, some "Run"⟩)] [("t", ⟨some 7, some "ZZZ x"⟩)]
      = [("t", some 7, "Run")]
    ∧ pyStartsWith "ZZZ x" "ZZZ" = true :=
  ⟨by decide, by decide⟩

/-- C6 (amended): for a key present in both snapshots, a rename call against
the target is issued iff the source (Garmin) name and the destination
(Strava) name differ AND the SOURCE name does not start with any ignore-list
entry. -/
theorem claim_C6_amended (ignoreList : List String)
    (garmin_activities strava_activities : List (String × NameSyncer.Activity))
    (k : String) (ga sa : NameSyncer.Activity)
    (hnodup : (garmin_activities.map Prod.fst).Nodup)
    (hg : (k, ga) ∈ garmin_activities)
    (hs : strava_activities.lookup k = some sa) :
    ((k, sa.id, ga.name.getD "N/A")
        ∈ NameSyncer.sync_name_from_garmin_to_strava ignoreList
            garmin_activities strava_activities)
      ↔ (ga.name.getD "N/A" ≠ sa.name.getD "N/A"
          ∧ NameSyncer.isIgnored ignoreList (ga.name.getD "N/A") = false) := by
  constructor
  · intro hmem
    rw [NameSyncer.sync_name_from_garmin_to_strava, List.mem_filterMap] at hmem
    obtain ⟨kv, hkv, hf⟩ := hmem
    obtain ⟨k2, a2⟩ := kv
    dsimp only at hf
    by_cases hig : NameSyncer.isIgnored ignoreList (a2.name.getD "N/A") = true
    · rw [if_pos hig] at hf
      exact absurd hf (by simp)
    · rw [if_neg hig] at hf
      cases hlk : strava_activities.lookup k2 with
      | none =>
        simp only [hlk] at hf
        exact absurd hf (by simp)
      | some sa2 =>
        simp only [hlk] at hf
        by_cases hne : ((a2.name.getD "N/A") != (sa2.name.getD "N/A")) = true
        · rw [if_pos hne] at hf
          injection hf with hf
          have hk2 : k2 = k := congrArg Prod.fst hf
          have hname : a2.name.getD "N/A" = ga.name.getD "N/A" := by
            subst hk2
            have := assoc_value_unique hnodup hkv hg
            rw [this]
          have hsa2 : sa2 = sa := by
            subst hk2
            rw [hlk] at hs
            injection hs
          subst hsa2
          refine ⟨?_, ?_⟩
          · rw [← hname]
            exact bne_iff_ne.mp hne
          · rw [← hname]
            exact Bool.not_eq_true _ ▸ hig
        · rw [if_neg hne] at hf
          exact absurd hf (by simp)
  · rintro ⟨hne, hig⟩
    rw [NameSyncer.sync_name_from_garmin_to_strava, List.mem_filterMap]
    refine ⟨(k, ga), hg, ?_⟩
    dsimp only
    rw [if_neg (by rw [hig]; simp)]
    simp only [hs]
    rw [if_pos (bne_iff_ne.mpr hne)]

/-- C6 witness: differing names, source name not ignored, rename issued. -/
theorem claim_C6_witness :
    ("t", some 2, "Run")
      ∈ NameSyncer.sync_name_from_garmin_to_strava ["AM"]
          [("t", ⟨some 1, some "Run"⟩)] [("t", ⟨some 2, some "Jog"⟩)] :=
  (claim_C6_amended ["AM"] [("t", ⟨some 1, some "Run"⟩)] [("t", ⟨some 2, some "Jog"⟩)]
    "t" ⟨some 1, some "Run"⟩ ⟨some 2, some "Jog"⟩
    (by decide) (by decide) (by decide)).mpr ⟨by decide, by decide⟩

/-- C7 counterexample: in the root script an unparsable watermark
(`parseDate` rejects the stored string) is only detected after the Google
Fit initialisation, the data-source lookup and the Garmin initialisation —
three network calls — and the run then ends with exit status 0, not a
non-zero one. -/
theorem claim_C7_counterexample :
    (StepsRoot.mainPrelude (fun _ => none)
        ⟨some "2025-13-99", some "tok", some "json"⟩ true true true true).netCalls
      = [NetOp.googleInit, NetOp.dataSource, NetOp.garminInit]
    ∧ (StepsRoot.mainPrelude (fun _ => none)
        ⟨some "2025-13-99", some "tok", some "json"⟩ true true true true).exitCode
      = some 0 :=
  ⟨rfl, rfl⟩

/-- C7 (amended): a missing or unparsable watermark makes the
instant-watermark syncer exit with status 1 before any network call; the
root script does the same when the watermark is missing, but an unparsable
one there only fails after the network initialisations (see the
counterexample). -/
theorem claim_C7_amended (parse : String → Option Int) (cfg : StepsSyncer.Cfg)
    (jsonDecodeOk googleOk dataSourceOk garminOk : Bool)
    (h : cfg.last_startGMT = none
        ∨ ∃ s, cfg.last_startGMT = some s ∧ parse s = none) :
    StepsSyncer.mainPrelude parse cfg jsonDecodeOk googleOk dataSourceOk garminOk
        = ⟨[], some 1, none⟩
    ∧ ∀ (parse2 : String → Option Int) (cfg2 : StepsRoot.Cfg) (j2 g2 d2 r2 : Bool),
        cfg2.last_synced_date = none →
        StepsRoot.mainPrelude parse2 cfg2 j2 g2 d2 r2 = ⟨[], some 1, none⟩ := by
  constructor
  · rcases h with h0 | ⟨s, hsome, hparse⟩
    · rw [StepsSyncer.mainPrelude, h0]
    · rw [StepsSyncer.mainPrelude, hsome]
      simp only [hparse]
  · intro parse2 cfg2 j2 g2 d2 r2 h0
    rw [StepsRoot.mainPrelude, h0]

/-- C7 witness: with the watermark variable unset the syncer exits 1 with no
network calls. -/
theorem claim_C7_witness :
    StepsSyncer.mainPrelude (fun _ => none) ⟨none, some "tok", some "json"⟩ true true true true
      = ⟨[], some 1, none⟩ :=
  (claim_C7_amended (fun _ => none) ⟨none, some "tok", some "json"⟩ true true true true
    (Or.inl rfl)).1

/-- C8: the notifier's decision coincides with the specified one — an event
is emitted iff some field differs or no previous snapshot exists, it carries
the old and new values, its trend is up when the new score is greater, down
when less, none otherwise or when no previous score exists, and no event is
emitted when all fields are equal. -/
theorem claim_C8_notifier_refines_spec (prev : Option IndexChecker.IndexSnapshot)
    (newData : IndexChecker.IndexSnapshot) :
    IndexChecker.checkAndNotify prev newData = IndexChecker.notifySpec prev newData := by
  cases prev with
  | none =>
    rw [IndexChecker.checkAndNotify, IndexChecker.notifySpec]
    rw [if_neg (by simp)]
    rfl
  | some old =>
    rw [IndexChecker.checkAndNotify, IndexChecker.notifySpec]
    cases hcond : (old.latest_date != newData.latest_date
        || old.latest_signal != newData.latest_signal
        || old.latest_signal_score != newData.latest_signal_score) with
    | false =>
      simp only [Bool.or_eq_false_iff, bne_eq_false_iff_eq] at hcond
      obtain ⟨⟨h1, h2⟩, h3⟩ := hcond
      have heq : old = newData := by
        cases old; cases newData; simp_all
      rw [if_neg (by simp), if_pos (by rw [heq])]
    | true =>
      rw [if_pos rfl]
      have hne : ¬ (some old = some newData) := by
        intro hsome
        injection hsome with hsome
        subst hsome
        simp at hcond
      rw [if_neg hne]
      rfl

/-- C9: a fetch failure (`none`) is treated exactly like an empty fetch —
replacing every failing day by an empty result leaves the whole run
unchanged — and the loop stops at the failing day as a normal terminal
condition with the watermark untouched and nothing forwarded, so the day is
not refetched within the run. -/
theorem claim_C9_fetch_error_as_empty (fetch : Int → Option (List StepsEntry))
    (today : Int) (upsertOk : Int → Bool) (w : Int) :
    StepsSyncer.runSync (fun d => some ((fetch d).getD [])) today upsertOk w
        = StepsSyncer.runSync fetch today upsertOk w
    ∧ ∀ (fuel : Nat) (v day : Int), fetch day = none →
        StepsSyncer.syncLoop fetch upsertOk (fuel + 1) v day
          = ⟨v, [], [], day, .noData⟩ := by
  constructor
  · rw [StepsSyncer.runSync, StepsSyncer.runSync]
    exact syncLoop_err_as_empty fetch upsertOk (today - dayOfUTC8 w + 1).toNat w (dayOfUTC8 w)
  · exact fun fuel v day h => syncLoop_noData fetch upsertOk fuel v day h

/-- C9 witness: a run in which every fetch fails stops immediately on its
first day with reason `noData` and an unchanged watermark. -/
theorem claim_C9_witness :
    StepsSyncer.runSync (fun d => some ((((fun _ => none) : Int → Option (List StepsEntry)) d).getD []))
        0 (fun _ => true) 0
      = StepsSyncer.runSync (fun _ => none) 0 (fun _ => true) 0
    ∧ StepsSyncer.syncLoop (fun _ => none) (fun _ => true) 1 0 0
        = ⟨0, [], [], 0, .noData⟩ :=
  ⟨(claim_C9_fetch_error_as_empty (fun _ => none) 0 (fun _ => true) 0).1,
    (claim_C9_fetch_error_as_empty (fun _ => none) 0 (fun _ => true) 0).2 0 0 0 rfl⟩

/-- C10: the root script's dataset-key computation fails (`IndexError`,
modelled as `none`) on an empty record list; the filtered list of a
non-empty all-zero-steps day is empty and is passed to the upsert
unconditionally, so the run aborts (`.error`) and the watermark file is
never written. -/
theorem claim_C10_empty_upsert_aborts :
    StepsRoot.insert_dataset_key [] = none
    ∧ StepsRoot.filter_steps_data [⟨900, 1800, 0⟩] = []
    ∧ StepsRoot.rootRun (fun d => if d = 0 then some [⟨900, 1800, 0⟩] else some []) 0 0
        = .error ()
    ∧ StepsRoot.rootFinalWrite
        (StepsRoot.rootRun (fun d => if d = 0 then some [⟨900, 1800, 0⟩] else some []) 0 0)
        = none :=
  ⟨rfl, rfl, rfl, rfl⟩
